import Mathlib

/-!
Verification of the JSON-merge-patch detailed-diff engine of
`src/mocks/provider/provider.go` (lines 1903-2142): `convertPatchToDiff`,
`makePatchSlice`, `equalNumbers`, and the `patchConverter` methods
`addPatchValueToDiff`, `addPatchMapToDiff`, `addPatchArrayToDiff`.

Modelling choices, in one place:

* Go dynamic values (`interface{}` trees produced by JSON decoding) are
  modelled by `Option JVal`: `none` is the Go `nil` interface (which is also
  what a JSON `null` decodes to, and what a missing map key or an
  out-of-range index lookup yields), `some v` is a non-nil value.
* Go `map[string]interface{}` is modelled as an association list
  `List (String × Option JVal)`.  Go map iteration order is unspecified;
  the list order is one admissible iteration order.  A nil Go map and an
  empty Go map behave identically in this code (lookups yield `nil`,
  iteration does nothing), so both are modelled by `[]` except where the
  code distinguishes them explicitly (`convertPatchToDiff`'s nil check on
  `oldLiveState`, modelled with `Option`).
* Go `int64` is modelled as `Int`; Go `float64` is modelled as `Rat`.
  All numeric literals appearing in the verified claims (3, 3.0, 4) are
  exactly representable in `float64`, and `int64`-to-`float64` conversion
  is exact for them, so the rational model coincides with the IEEE-754
  behaviour of the source on every input considered here (the spec itself
  flags the exact numeric coercion boundary as an open question).
* The external collaborator `openapi.PatchPropertiesChanged` (from the
  `pulumi-kubernetes` dependency, not part of this repository) is a
  parameter `q : QueryFn`; its Go signature
  `(map[string]interface{}, []string) -> ([]string, error)` becomes
  `JObj → List String → Except String (List String)`.
* `contract.Assertf` / `contract.Require` / failed type assertions abort
  the computation with the distinguished outcome `PErr.assertFail`.
* The mutual recursion of the three `addPatch*ToDiff` methods is compiled
  with an explicit fuel argument so that every definition is structurally
  recursive and computable by `rfl`/`decide`.  Theorem `C9_termination`
  (and the lemma `fuel_sufficient` behind it) shows that the fuel chosen
  by `convertPatchToDiff` can never be exhausted, i.e. the source
  recursion is well-founded and the fuel is a proof artifact, not a
  semantic one.
-/

/-- A non-nil Go dynamic value as produced by JSON decoding: `string`,
`int64`, `float64`, `bool`, `map[string]interface{}` or `[]interface{}`.
Nested `Option JVal` is the Go `nil` interface / JSON `null`. -/
inductive JVal where
  | str (s : String)
  | intg (n : Int)
  | flt (x : Rat)
  | boolean (b : Bool)
  | obj (fields : List (String × Option JVal))
  | arr (elems : List (Option JVal))

/-- A Go `map[string]interface{}` as an association list. -/
abbrev JObj := List (String × Option JVal)

/-- A Go `[]interface{}`. -/
abbrev JArr := List (Option JVal)

/-- One element of the `path []interface{}` threaded through the diff
computation: the code only ever puts `string` map keys and `int` array
indices into it (provider.go lines 2089, 2098, 2120, 2128, 2135), and the
indices are loop counters, hence non-negative. -/
inductive PathSeg where
  | key (s : String)
  | idx (n : Nat)

/-- Kinds of `pulumirpc.PropertyDiff_Kind`, restricted to the variants this
code produces. -/
inductive DiffKind where
  | ADD
  | ADD_REPLACE
  | DELETE
  | DELETE_REPLACE
  | UPDATE
  | UPDATE_REPLACE
deriving DecidableEq

/-- Structure `pulumirpc.PropertyDiff`: the fields this code sets. -/
structure PropertyDiff where
  kind : DiffKind
  inputDiff : Bool
deriving DecidableEq

/-- The accumulator `patchConverter.diff` (`map[string]*pulumirpc.PropertyDiff`),
modelled as an association list written by `insertDiff`. -/
abbrev DiffMap := List (String × PropertyDiff)

/-- How a call can fail to return normally: `fuelOut` is the model
artifact (provably unreachable, see `C9_termination`); `assertFail` is a
`contract.Assertf`/`contract.Require` violation or a failed Go type
assertion (a panic in the source); `queryErr e` is an error returned by
the force-new pattern query and propagated as a regular Go error. -/
inductive PErr where
  | fuelOut
  | assertFail
  | queryErr (e : String)
deriving DecidableEq

/-- The external force-new pattern query `openapi.PatchPropertiesChanged`. -/
abbrev QueryFn := JObj → List String → Except String (List String)

/-- Go map value lookup `m[k]`: yields the stored value, or `nil` when the
key is absent (Go does not distinguish a stored nil from an absent key on
a plain lookup). -/
def lookupVal : JObj → String → Option JVal
  | [], _ => none
  | (k2, v) :: rest, k => if k2 == k then v else lookupVal rest k

/-- Go comma-ok map lookup `_, ok := m[k]`: key presence, which does
distinguish a stored nil from an absent key (provider.go line 2095). -/
def hasKey : JObj → String → Bool
  | [], _ => false
  | (k2, _) :: rest, k => k2 == k || hasKey rest k

/-- The local helper `at` of `addPatchArrayToDiff` (provider.go lines
2111-2116): in-range index yields the element, out-of-range yields nil. -/
def atIdx : JArr → Nat → Option JVal
  | [], _ => none
  | v :: _, 0 => v
  | _ :: rest, i + 1 => atIdx rest i

/-- Go type assertion with discarded ok, `m, _ := v.(map[string]interface{})`
(provider.go lines 2008-2009): a failed assertion (including on nil) yields
a nil map, modelled as `[]`. -/
def asObj : Option JVal → JObj
  | some (.obj m) => m
  | _ => []

/-- Go type assertion `a, _ := v.([]interface{})` (provider.go lines
2015-2016). -/
def asArr : Option JVal → JArr
  | some (.arr a) => a
  | _ => []

/-- Write `pc.diff[pathStr] = d` (provider.go line 2069): replace the
binding if the key is present, else add it. -/
def insertDiff : DiffMap → String → PropertyDiff → DiffMap
  | [], k, d => [(k, d)]
  | (k2, d2) :: rest, k, d =>
      if k2 == k then (k, d) :: rest else (k2, d2) :: insertDiff rest k d

mutual

/-- Structural deep equality, modelling `reflect.DeepEqual` (provider.go
line 2021).  In the source, `DeepEqual`/`equalNumbers` are only ever
applied with a non-container first argument (the `default` branch of the
type switch), where comparing association lists positionally agrees with
Go's unordered map comparison, since any container on either side makes
the comparison false. -/
def JVal.beq : JVal → JVal → Bool
  | .str a, .str b => a == b
  | .intg a, .intg b => a == b
  | .flt a, .flt b => a == b
  | .boolean a, .boolean b => a == b
  | .obj a, .obj b => beqFields a b
  | .arr a, .arr b => beqElems a b
  | _, _ => false
termination_by structural a => a

/-- Deep equality on possibly-nil values. -/
def beqOptV : Option JVal → Option JVal → Bool
  | none, none => true
  | some a, some b => JVal.beq a b
  | _, _ => false
termination_by structural a => a

/-- Deep equality on map entry lists. -/
def beqFields : List (String × Option JVal) → List (String × Option JVal) → Bool
  | [], [] => true
  | (k1, v1) :: r1, (k2, v2) :: r2 => k1 == k2 && beqOptV v1 v2 && beqFields r1 r2
  | _, _ => false
termination_by structural a => a

/-- Deep equality on array element lists. -/
def beqElems : List (Option JVal) → List (Option JVal) → Bool
  | [], [] => true
  | a :: r1, b :: r2 => beqOptV a b && beqElems r1 r2
  | _, _ => false
termination_by structural a => a

end

/-- The discriminator `reflect.TypeOf(v).Kind()` used by `equalNumbers`
(provider.go line 1942): one tag per dynamic type. -/
def kindOf : JVal → Nat
  | .str _ => 0
  | .intg _ => 1
  | .flt _ => 2
  | .boolean _ => 3
  | .obj _ => 4
  | .arr _ => 5

/-- The local closure `toFloat` of `equalNumbers` (provider.go lines
1947-1956): coerce an `int64` or `float64` to `float64`, fail otherwise. -/
def toFloatNum : JVal → Option Rat
  | .intg n => some (n : Rat)
  | .flt x => some x
  | _ => none

/-- Function `equalNumbers` (provider.go lines 1941-1961): same dynamic type falls
back to deep equality; otherwise both sides must coerce to `float64` and
compare equal. -/
def equalNumbers (a b : JVal) : Bool :=
  if kindOf a == kindOf b then JVal.beq a b
  else
    match toFloatNum a, toFloatNum b with
    | some x, some y => x == y
    | _, _ => false

/-- Function `makePatchSlice` (provider.go lines 1922-1937): rebuild a one-path
document shaped for the force-new pattern query.  The `contract.Failf`
default branch is unreachable here because `PathSeg` has exactly the
`string` and `int` cases. -/
def makePatchSlice : List PathSeg → Option JVal → Option JVal
  | [], v => v
  | .key s :: rest, v => some (.obj [(s, makePatchSlice rest v)])
  | .idx _ :: rest, v => some (.arr [makePatchSlice rest v])

/-- Test for the reserved path characters, `strings.ContainsAny(v, `."[]`)`
(provider.go line 2057), stated over the character list of the string. -/
def hasReservedChar (s : String) : Bool :=
  s.data.any fun c => c == '.' || c == '"' || c == '[' || c == ']'

/-- Character-level quote escaping: each `"` becomes `\"`. -/
def escapeQuotesAux : List Char → List Char
  | [] => []
  | c :: rest =>
      if c == '"' then '\\' :: '"' :: escapeQuotesAux rest
      else c :: escapeQuotesAux rest

/-- Escaping of embedded quotes, `strings.ReplaceAll(v, `"`, `\"`)`
(provider.go line 2058); for a single-character pattern, `ReplaceAll` is
exactly this per-character substitution. -/
def escapeQuotes (s : String) : String :=
  String.mk (escapeQuotesAux s.data)

/-- One iteration of the path-rendering loop (provider.go lines 2054-2067),
folding the next segment onto the rendered prefix `acc`. -/
def renderSeg (acc : String) : PathSeg → String
  | .key s =>
      if hasReservedChar s then acc ++ "[\"" ++ escapeQuotes s ++ "\"]"
      else if acc ≠ "" then acc ++ "." ++ s
      else s
  | .idx n => acc ++ "[" ++ toString n ++ "]"

/-- The rendered `pathStr` (provider.go lines 2053-2067). -/
def renderPath (path : List PathSeg) : String :=
  path.foldl renderSeg ""

/-- The `_REPLACE` escalation switch (provider.go lines 2042-2051). -/
def escalateKind : DiffKind → DiffKind
  | .ADD => .ADD_REPLACE
  | .DELETE => .DELETE_REPLACE
  | .UPDATE => .UPDATE_REPLACE
  | k => k

/-- The non-recursive tail of `addPatchValueToDiff` (provider.go lines
2037-2070): query the force-new database with the one-path document,
escalate the kind on a non-empty match set, render the path and record
the entry.  The Go type assertion `makePatchSlice(path, v).(map[string]interface{})`
panics unless the document is a map, hence the `assertFail` fallback. -/
def recordDiff (q : QueryFn) (forceNew : List String) (path : List PathSeg)
    (v : Option JVal) (kind : DiffKind) (inputDiff : Bool) (diff : DiffMap) :
    DiffMap × Option PErr :=
  match makePatchSlice path v with
  | some (.obj doc) =>
      match q doc forceNew with
      | .error e => (diff, some (.queryErr e))
      | .ok ms =>
          let k := if ms.isEmpty then kind else escalateKind kind
          (insertDiff diff (renderPath path) ⟨k, inputDiff⟩, none)
  | _ => (diff, some .assertFail)

mutual

/-- Method `(*patchConverter).addPatchValueToDiff` (provider.go lines 1984-2071).
The state is the explicit `diff` accumulator; the second component of the
result is `none` on a normal return and the abnormal outcome otherwise. -/
def addPatchValueToDiff (q : QueryFn) (forceNew : List String) (fuel : Nat)
    (path : List PathSeg) (v old newInput oldInput : Option JVal)
    (inArray : Bool) (diff : DiffMap) : DiffMap × Option PErr :=
  match fuel with
  | 0 => (diff, some .fuelOut)
  | fuel + 1 =>
    if v.isNone && old.isNone && oldInput.isNone then (diff, some .assertFail)
    else if newInput.isNone && (v.isSome || oldInput.isNone) then (diff, none)
    else
      match v with
      | none => recordDiff q forceNew path none .DELETE true diff
      | some vv =>
        match old with
        | none => recordDiff q forceNew path (some vv) .ADD false diff
        | some oldv =>
          match vv with
          | .obj m =>
            match oldv with
            | .obj om =>
                addPatchMapToDiff q forceNew fuel path m om
                  (asObj newInput) (asObj oldInput) inArray diff
            | _ => recordDiff q forceNew path (some vv) .UPDATE false diff
          | .arr a =>
            match oldv with
            | .arr oa =>
                addPatchArrayToDiff q forceNew fuel path a oa
                  (asArr newInput) (asArr oldInput) inArray diff
            | _ => recordDiff q forceNew path (some vv) .UPDATE false diff
          | _ =>
            if JVal.beq vv oldv || equalNumbers vv oldv then (diff, none)
            else recordDiff q forceNew path (some vv) .UPDATE false diff
termination_by structural fuel

/-- Method `(*patchConverter).addPatchMapToDiff` (provider.go lines 2077-2104).
The nil-map defaulting of lines 2081-2086 is the identity in the list
model.  The two `for` loops are `mapEntriesLoop` and `mapDeletesLoop`. -/
def addPatchMapToDiff (q : QueryFn) (forceNew : List String) (fuel : Nat)
    (path : List PathSeg) (m om niM oiM : JObj) (inArray : Bool)
    (diff : DiffMap) : DiffMap × Option PErr :=
  match fuel with
  | 0 => (diff, some .fuelOut)
  | fuel + 1 =>
    match mapEntriesLoop q forceNew fuel path m om niM oiM inArray diff with
    | (d, some e) => (d, some e)
    | (d, none) =>
        if inArray then mapDeletesLoop q forceNew fuel path om m niM oiM inArray d
        else (d, none)
termination_by structural fuel

/-- The loop `for k, v := range m` of `addPatchMapToDiff` (provider.go
lines 2088-2092), with `l` the entries still to visit. -/
def mapEntriesLoop (q : QueryFn) (forceNew : List String) (fuel : Nat)
    (path : List PathSeg) (l : JObj) (om niM oiM : JObj) (inArray : Bool)
    (diff : DiffMap) : DiffMap × Option PErr :=
  match fuel with
  | 0 => (diff, some .fuelOut)
  | fuel + 1 =>
    match l with
    | [] => (diff, none)
    | (k, vk) :: rest =>
      match addPatchValueToDiff q forceNew fuel (path ++ [.key k]) vk
          (lookupVal om k) (lookupVal niM k) (lookupVal oiM k) inArray diff with
      | (d, some e) => (d, some e)
      | (d, none) => mapEntriesLoop q forceNew fuel path rest om niM oiM inArray d
termination_by structural fuel

/-- The delete-inference loop `for k, v := range old` of
`addPatchMapToDiff`, run only when `inArray` is true (provider.go lines
2093-2102), with `l` the old entries still to visit and `m` the patch map. -/
def mapDeletesLoop (q : QueryFn) (forceNew : List String) (fuel : Nat)
    (path : List PathSeg) (l : JObj) (m niM oiM : JObj) (inArray : Bool)
    (diff : DiffMap) : DiffMap × Option PErr :=
  match fuel with
  | 0 => (diff, some .fuelOut)
  | fuel + 1 =>
    match l with
    | [] => (diff, none)
    | (k, vk) :: rest =>
      if hasKey m k then mapDeletesLoop q forceNew fuel path rest m niM oiM inArray diff
      else
        match addPatchValueToDiff q forceNew fuel (path ++ [.key k]) none vk
            (lookupVal niM k) (lookupVal oiM k) inArray diff with
        | (d, some e) => (d, some e)
        | (d, none) => mapDeletesLoop q forceNew fuel path rest m niM oiM inArray d
termination_by structural fuel

/-- Method `(*patchConverter).addPatchArrayToDiff` (provider.go lines 2107-2142).
Its `inArray` parameter is accepted but unused in the source as well:
every recursive call passes `true`. -/
def addPatchArrayToDiff (q : QueryFn) (forceNew : List String) (fuel : Nat)
    (path : List PathSeg) (a oa niA oiA : JArr) (inArray : Bool)
    (diff : DiffMap) : DiffMap × Option PErr :=
  match fuel with
  | 0 => (diff, some .fuelOut)
  | fuel + 1 => arrayLoop q forceNew fuel path 0 a oa niA oiA diff
termination_by structural fuel

/-- The three index loops of `addPatchArrayToDiff` (provider.go lines
2118-2140) merged on the remaining suffixes: paired elements while both
arrays last, then the additions (`old = nil`) or deletions (`v = nil`)
tail.  `i` is the absolute index, used for the path and for the `at`
lookups into the input arrays. -/
def arrayLoop (q : QueryFn) (forceNew : List String) (fuel : Nat)
    (path : List PathSeg) (i : Nat) (a oa niA oiA : JArr)
    (diff : DiffMap) : DiffMap × Option PErr :=
  match fuel with
  | 0 => (diff, some .fuelOut)
  | fuel + 1 =>
    match a, oa with
    | [], [] => (diff, none)
    | x :: xs, y :: ys =>
      match addPatchValueToDiff q forceNew fuel (path ++ [.idx i]) x y
          (atIdx niA i) (atIdx oiA i) true diff with
      | (d, some e) => (d, some e)
      | (d, none) => arrayLoop q forceNew fuel path (i + 1) xs ys niA oiA d
    | x :: xs, [] =>
      match addPatchValueToDiff q forceNew fuel (path ++ [.idx i]) x none
          (atIdx niA i) (atIdx oiA i) true diff with
      | (d, some e) => (d, some e)
      | (d, none) => arrayLoop q forceNew fuel path (i + 1) xs [] niA oiA d
    | [], y :: ys =>
      match addPatchValueToDiff q forceNew fuel (path ++ [.idx i]) none y
          (atIdx niA i) (atIdx oiA i) true diff with
      | (d, some e) => (d, some e)
      | (d, none) => arrayLoop q forceNew fuel path (i + 1) [] ys niA oiA d
termination_by structural fuel

end

mutual

/-- Size of a possibly-nil value, the measure bounding the recursion
depth of the three `addPatch*ToDiff` methods. -/
def sizeOptV : Option JVal → Nat
  | none => 0
  | some v => JVal.size v
termination_by structural a => a

/-- Size of a value. -/
def JVal.size : JVal → Nat
  | .str _ => 1
  | .intg _ => 1
  | .flt _ => 1
  | .boolean _ => 1
  | .obj m => 1 + sizeFields m
  | .arr a => 1 + sizeElems a
termination_by structural a => a

/-- Size of a map entry list. -/
def sizeFields : List (String × Option JVal) → Nat
  | [] => 0
  | e :: rest => 1 + sizeOptV e.2 + sizeFields rest
termination_by structural a => a

/-- Size of an array element list. -/
def sizeElems : List (Option JVal) → Nat
  | [] => 0
  | v :: rest => 1 + sizeOptV v + sizeElems rest
termination_by structural a => a

end

/-- The fuel `convertPatchToDiff` hands to the recursion; by
`fuel_sufficient` it is never exhausted. -/
def patchConverterFuel (patch old : JObj) : Nat :=
  sizeFields patch + sizeFields old + 4

/-- Function `convertPatchToDiff` (provider.go lines 1904-1917).  The two
`contract.Require` preconditions (non-empty patch, non-nil old live
state) abort with `assertFail` when violated; `oldLiveState` is an
`Option` precisely to express the Go nil-map check.  On a query error the
source still returns the partially filled `pc.diff` next to the error
(line 1916 returns `pc.diff, err`), which the pair result reproduces. -/
def convertPatchToDiff (q : QueryFn) (forceNewFields : List String)
    (patch : JObj) (oldLiveState : Option JObj) (newInputs oldInputs : JObj) :
    DiffMap × Option PErr :=
  match oldLiveState with
  | none => ([], some .assertFail)
  | some old =>
    if patch.isEmpty then ([], some .assertFail)
    else
      addPatchMapToDiff q forceNewFields (patchConverterFuel patch old) []
        patch old newInputs oldInputs false []

/-- The value stored under a key is no larger than the whole entry list. -/
theorem sizeOptV_lookupVal (om : JObj) (k : String) :
    sizeOptV (lookupVal om k) ≤ sizeFields om := by
  induction om with
  | nil => simp [lookupVal, sizeOptV, sizeFields]
  | cons e rest ih =>
    obtain ⟨k2, v⟩ := e
    simp only [lookupVal, sizeFields]
    by_cases h : k2 == k
    · simp [h]; omega
    · simp [h]; omega

/-- `recordDiff` never reports fuel exhaustion. -/
theorem recordDiff_ne_fuelOut (q : QueryFn) (fn : List String)
    (path : List PathSeg) (v : Option JVal) (kind : DiffKind)
    (inputDiff : Bool) (diff : DiffMap) :
    (recordDiff q fn path v kind inputDiff diff).2 ≠ some PErr.fuelOut := by
  unfold recordDiff
  rcases makePatchSlice path v with _ | vv
  · simp
  · rcases vv <;> simp
    rcases q _ fn <;> simp

/-- Propagation scheme of the error-checking `match` after each recursive
call: if neither the call nor the continuation can report the outcome `bad`,
neither can the composite. -/
theorem matchStep (r : DiffMap × Option PErr) (g : DiffMap → DiffMap × Option PErr)
    (bad : PErr) (h1 : r.2 ≠ some bad) (h2 : ∀ d, (g d).2 ≠ some bad) :
    (match r with
     | (d, some e) => (d, some e)
     | (d, none) => g d).2 ≠ some bad := by
  rcases r with ⟨d, _ | e⟩
  · exact h2 d
  · simpa using h1

/-- Fuel bounded below by the tree sizes is never exhausted, for each of
the mutually recursive functions. -/
theorem fuel_sufficient (fuel : Nat) :
    (∀ (q : QueryFn) (fn : List String) (path : List PathSeg)
       (v old ni oi : Option JVal) (ia : Bool) (diff : DiffMap),
       sizeOptV v + sizeOptV old + 2 ≤ fuel →
       (addPatchValueToDiff q fn fuel path v old ni oi ia diff).2 ≠ some PErr.fuelOut) ∧
    (∀ (q : QueryFn) (fn : List String) (path : List PathSeg)
       (m om niM oiM : JObj) (ia : Bool) (diff : DiffMap),
       sizeFields m + sizeFields om + 3 ≤ fuel →
       (addPatchMapToDiff q fn fuel path m om niM oiM ia diff).2 ≠ some PErr.fuelOut) ∧
    (∀ (q : QueryFn) (fn : List String) (path : List PathSeg)
       (l om niM oiM : JObj) (ia : Bool) (diff : DiffMap),
       sizeFields l + sizeFields om + 2 ≤ fuel →
       (mapEntriesLoop q fn fuel path l om niM oiM ia diff).2 ≠ some PErr.fuelOut) ∧
    (∀ (q : QueryFn) (fn : List String) (path : List PathSeg)
       (l m niM oiM : JObj) (ia : Bool) (diff : DiffMap),
       sizeFields l + sizeFields m + 2 ≤ fuel →
       (mapDeletesLoop q fn fuel path l m niM oiM ia diff).2 ≠ some PErr.fuelOut) ∧
    (∀ (q : QueryFn) (fn : List String) (path : List PathSeg)
       (a oa niA oiA : JArr) (ia : Bool) (diff : DiffMap),
       sizeElems a + sizeElems oa + 3 ≤ fuel →
       (addPatchArrayToDiff q fn fuel path a oa niA oiA ia diff).2 ≠ some PErr.fuelOut) ∧
    (∀ (q : QueryFn) (fn : List String) (path : List PathSeg) (i : Nat)
       (a oa niA oiA : JArr) (diff : DiffMap),
       sizeElems a + sizeElems oa + 2 ≤ fuel →
       (arrayLoop q fn fuel path i a oa niA oiA diff).2 ≠ some PErr.fuelOut) := by
  induction fuel with
  | zero =>
    refine ⟨?_, ?_, ?_, ?_, ?_, ?_⟩ <;> (intros; omega)
  | succ f ih =>
    obtain ⟨ihv, ihm, ihe, ihd, iha, ihl⟩ := ih
    refine ⟨?_, ?_, ?_, ?_, ?_, ?_⟩
    · -- addPatchValueToDiff
      intro q fn path v old ni oi ia diff hs
      unfold addPatchValueToDiff
      rcases v with _ | vv
      · simp only []
        split
        · simp
        · split
          · simp
          · exact recordDiff_ne_fuelOut q fn path none .DELETE true diff
      · rcases old with _ | oldv
        · simp only []
          split
          · simp
          · split
            · simp
            · exact recordDiff_ne_fuelOut q fn path (some vv) .ADD false diff
        · simp only []
          split
          · simp
          · split
            · simp
            · rcases vv with s | n | x | b | m | a
              all_goals rcases oldv with s2 | n2 | x2 | b2 | m2 | a2
              all_goals simp only []
              all_goals first
                | (apply ihm
                   simp [sizeOptV, JVal.size] at hs
                   omega)
                | (apply iha
                   simp [sizeOptV, JVal.size] at hs
                   omega)
                | apply recordDiff_ne_fuelOut
                | (split
                   · simp
                   · apply recordDiff_ne_fuelOut)
    · -- addPatchMapToDiff
      intro q fn path m om niM oiM ia diff hs
      unfold addPatchMapToDiff
      apply matchStep
      · apply ihe; omega
      · intro d
        split
        · apply ihd; omega
        · simp
    · -- mapEntriesLoop
      intro q fn path l om niM oiM ia diff hs
      rcases l with _ | ⟨⟨k, vk⟩, rest⟩
      · simp [mapEntriesLoop]
      · simp only [sizeFields] at hs
        have hlk := sizeOptV_lookupVal om k
        simp only [mapEntriesLoop]
        apply matchStep
        · apply ihv; omega
        · intro d
          apply ihe; omega
    · -- mapDeletesLoop
      intro q fn path l m niM oiM ia diff hs
      rcases l with _ | ⟨⟨k, vk⟩, rest⟩
      · simp [mapDeletesLoop]
      · simp only [sizeFields] at hs
        simp only [mapDeletesLoop]
        split
        · apply ihd; omega
        · apply matchStep
          · apply ihv; simp [sizeOptV]; omega
          · intro d
            apply ihd; omega
    · -- addPatchArrayToDiff
      intro q fn path a oa niA oiA ia diff hs
      unfold addPatchArrayToDiff
      apply ihl; omega
    · -- arrayLoop
      intro q fn path i a oa niA oiA diff hs
      rcases a with _ | ⟨x, xs⟩ <;> rcases oa with _ | ⟨y, ys⟩
      · simp [arrayLoop]
      · simp only [sizeElems] at hs
        simp only [arrayLoop]
        apply matchStep
        · apply ihv; simp [sizeOptV]; omega
        · intro d
          apply ihl; simp [sizeElems]; omega
      · simp only [sizeElems] at hs
        simp only [arrayLoop]
        apply matchStep
        · apply ihv; simp [sizeOptV]; omega
        · intro d
          apply ihl; simp [sizeElems]; omega
      · simp only [sizeElems] at hs
        simp only [arrayLoop]
        apply matchStep
        · apply ihv; omega
        · intro d
          apply ihl; omega


/-- Every key of `om` is present in `m` (so the delete-inference loop of
`addPatchMapToDiff` finds nothing to synthesize). -/
def coveredKeys (om m : JObj) : Bool :=
  om.all fun e => hasKey m e.1

mutual

/-- The patched value `v` is a no-op relative to the old value: maps have
exactly the same keys with pointwise no-op non-null entries, arrays have
the same length with pointwise no-op non-null elements, and scalars are
equal under `reflect.DeepEqual` or `equalNumbers`. -/
def noopVal : JVal → JVal → Bool
  | .obj m, .obj om => noopFields m om && coveredKeys om m
  | .arr a, .arr oa => noopElems a oa
  | .obj _, _ => false
  | .arr _, _ => false
  | v, old => JVal.beq v old || equalNumbers v old
termination_by structural v => v

/-- One patch entry is a no-op against the old value stored under the same
key: both must be present (non-null) and pointwise no-op. -/
def noopEntry : Option JVal → Option JVal → Bool
  | some w, some w2 => noopVal w w2
  | _, _ => false
termination_by structural v => v

/-- Pointwise no-op of the patch entries against the old map. -/
def noopFields : JObj → JObj → Bool
  | [], _ => true
  | (k, vk) :: rest, om => noopEntry vk (lookupVal om k) && noopFields rest om
termination_by structural l => l

/-- Pointwise no-op of array elements. -/
def noopElems : JArr → JArr → Bool
  | [], [] => true
  | some x :: xs, some y :: ys => noopVal x y && noopElems xs ys
  | _, _ => false
termination_by structural a => a

end

/-- No-op inputs produce no diff entries and no error, for each of the
mutually recursive functions, given sufficient fuel. -/
theorem noop_empty (fuel : Nat) :
    (∀ (q : QueryFn) (fn : List String) (path : List PathSeg)
       (vv oldv : JVal) (ni oi : Option JVal) (ia : Bool) (diff : DiffMap),
       JVal.size vv + JVal.size oldv + 2 ≤ fuel →
       noopVal vv oldv = true →
       addPatchValueToDiff q fn fuel path (some vv) (some oldv) ni oi ia diff = (diff, none)) ∧
    (∀ (q : QueryFn) (fn : List String) (path : List PathSeg)
       (m om niM oiM : JObj) (ia : Bool) (diff : DiffMap),
       sizeFields m + sizeFields om + 3 ≤ fuel →
       noopFields m om = true →
       (ia = false ∨ coveredKeys om m = true) →
       addPatchMapToDiff q fn fuel path m om niM oiM ia diff = (diff, none)) ∧
    (∀ (q : QueryFn) (fn : List String) (path : List PathSeg)
       (l om niM oiM : JObj) (ia : Bool) (diff : DiffMap),
       sizeFields l + sizeFields om + 2 ≤ fuel →
       noopFields l om = true →
       mapEntriesLoop q fn fuel path l om niM oiM ia diff = (diff, none)) ∧
    (∀ (q : QueryFn) (fn : List String) (path : List PathSeg)
       (l m niM oiM : JObj) (ia : Bool) (diff : DiffMap),
       sizeFields l + sizeFields m + 2 ≤ fuel →
       coveredKeys l m = true →
       mapDeletesLoop q fn fuel path l m niM oiM ia diff = (diff, none)) ∧
    (∀ (q : QueryFn) (fn : List String) (path : List PathSeg)
       (a oa niA oiA : JArr) (ia : Bool) (diff : DiffMap),
       sizeElems a + sizeElems oa + 3 ≤ fuel →
       noopElems a oa = true →
       addPatchArrayToDiff q fn fuel path a oa niA oiA ia diff = (diff, none)) ∧
    (∀ (q : QueryFn) (fn : List String) (path : List PathSeg) (i : Nat)
       (a oa niA oiA : JArr) (diff : DiffMap),
       sizeElems a + sizeElems oa + 2 ≤ fuel →
       noopElems a oa = true →
       arrayLoop q fn fuel path i a oa niA oiA diff = (diff, none)) := by
  induction fuel with
  | zero =>
    refine ⟨?_, ?_, ?_, ?_, ?_, ?_⟩ <;> (intros; omega)
  | succ f ih =>
    obtain ⟨ihv, ihm, ihe, ihd, iha, ihl⟩ := ih
    refine ⟨?_, ?_, ?_, ?_, ?_, ?_⟩
    · -- addPatchValueToDiff
      intro q fn path vv oldv ni oi ia diff hs hn
      unfold addPatchValueToDiff
      split
      · next h => simp at h
      · next h =>
        split
        · rfl
        · next h2 =>
          rcases vv with s | n | x | b | m | a
          all_goals rcases oldv with s2 | n2 | x2 | b2 | m2 | a2
          all_goals simp only [noopVal] at hn
          all_goals simp only []
          all_goals first
            | exact absurd hn Bool.false_ne_true
            | (split
               · rfl
               · next hcon => exact absurd hn hcon)
            | (simp only [Bool.and_eq_true] at hn
               apply ihm
               · simp only [JVal.size] at hs; omega
               · exact hn.1
               · exact Or.inr hn.2)
            | (apply iha
               · simp only [JVal.size] at hs; omega
               · exact hn)
    · -- addPatchMapToDiff
      intro q fn path m om niM oiM ia diff hs hn hdisj
      unfold addPatchMapToDiff
      have he := ihe q fn path m om niM oiM ia diff (by omega) hn
      rw [he]
      simp only []
      cases ia with
      | false => rfl
      | true =>
        rcases hdisj with hcontra | hcov
        · exact absurd hcontra (by simp)
        · simp only [if_true]
          exact ihd q fn path om m niM oiM true diff (by omega) hcov
    · -- mapEntriesLoop
      intro q fn path l om niM oiM ia diff hs hn
      rcases l with _ | ⟨⟨k, vk⟩, rest⟩
      · simp [mapEntriesLoop]
      · simp only [sizeFields] at hs
        simp only [noopFields, Bool.and_eq_true] at hn
        rcases hlk : lookupVal om k with _ | w2
        all_goals rcases vk with _ | w
        all_goals rw [hlk] at hn
        all_goals simp only [noopEntry] at hn
        · exact absurd hn.1 Bool.false_ne_true
        · exact absurd hn.1 Bool.false_ne_true
        · exact absurd hn.1 Bool.false_ne_true
        · obtain ⟨hnw, hrest⟩ := hn
          have hlkb := sizeOptV_lookupVal om k
          rw [hlk] at hlkb
          simp only [sizeOptV] at hlkb hs
          simp only [mapEntriesLoop]
          rw [hlk]
          have hv := ihv q fn (path ++ [.key k]) w w2 (lookupVal niM k)
            (lookupVal oiM k) ia diff (by omega) hnw
          rw [hv]
          simp only []
          exact ihe q fn path rest om niM oiM ia diff (by omega) hrest
    · -- mapDeletesLoop
      intro q fn path l m niM oiM ia diff hs hcov
      rcases l with _ | ⟨⟨k, vk⟩, rest⟩
      · simp [mapDeletesLoop]
      · simp only [sizeFields] at hs
        simp only [coveredKeys, List.all_cons, Bool.and_eq_true] at hcov
        simp only [mapDeletesLoop]
        rw [hcov.1]
        simp only [if_true]
        exact ihd q fn path rest m niM oiM ia diff (by omega)
          (by simp only [coveredKeys]; exact hcov.2)
    · -- addPatchArrayToDiff
      intro q fn path a oa niA oiA ia diff hs hn
      unfold addPatchArrayToDiff
      exact ihl q fn path 0 a oa niA oiA diff (by omega) hn
    · -- arrayLoop
      intro q fn path i a oa niA oiA diff hs hn
      rcases a with _ | ⟨x, xs⟩ <;> rcases oa with _ | ⟨y, ys⟩
      · simp [arrayLoop]
      · rcases y with _ | yv <;> simp only [noopElems] at hn <;> exact absurd hn Bool.false_ne_true
      · rcases x with _ | xv <;> simp only [noopElems] at hn <;> exact absurd hn Bool.false_ne_true
      · rcases x with _ | xv <;> rcases y with _ | yv
        all_goals simp only [noopElems] at hn
        · exact absurd hn Bool.false_ne_true
        · exact absurd hn Bool.false_ne_true
        · exact absurd hn Bool.false_ne_true
        · simp only [Bool.and_eq_true] at hn
          simp only [sizeElems, sizeOptV] at hs
          simp only [arrayLoop]
          have hv := ihv q fn (path ++ [.idx i]) xv yv (atIdx niA i)
            (atIdx oiA i) true diff (by omega) hn.1
          rw [hv]
          simp only []
          exact ihl q fn path (i + 1) xs ys niA oiA diff (by omega) hn.2

/-- A force-new pattern query that always succeeds with no matches. -/
def alwaysEmptyQuery : QueryFn := fun _ _ => Except.ok []

/-- A force-new pattern query that fails exactly on documents mentioning
the key `b`, used to exhibit error propagation. -/
def failOnKeyB : QueryFn := fun doc _ =>
  if doc.any (fun e => e.1 == "b") then Except.error "boom" else Except.ok []

/-- Claim C1: when `newInput` is nil and (`v` is non-nil or `oldInput` is
nil), `addPatchValueToDiff` records no diff entry at the path and returns
the accumulated diff map unchanged (in the corner case where `v`, `old`
and `oldInput` are simultaneously nil the call aborts on the
`contract.Assertf`, still leaving the map unchanged). -/
theorem C1_suppression (q : QueryFn) (fn : List String) (fuel : Nat)
    (path : List PathSeg) (v old oldInput : Option JVal) (inArray : Bool)
    (diff : DiffMap)
    (hsup : v.isSome = true ∨ oldInput = none) :
    addPatchValueToDiff q fn (fuel + 1) path v old none oldInput inArray diff
      = (diff, if v.isNone && old.isNone && oldInput.isNone
               then some PErr.assertFail else none) := by
  unfold addPatchValueToDiff
  rcases hsup with h | h
  · cases v with
    | none => simp at h
    | some vv => simp [h]
  · subst h
    cases v <;> cases old <;> simp

/-- Witness for C1 at a concrete input. -/
theorem C1_suppression_witness :
    addPatchValueToDiff alwaysEmptyQuery [] 1 [.key "k"]
      (some (.intg 7)) (some (.intg 3)) none none false [] = ([], none) := by
  have h := C1_suppression alwaysEmptyQuery [] 0 [.key "k"]
    (some (.intg 7)) (some (.intg 3)) none false [] (Or.inl rfl)
  simpa using h

/-- Counterexample to claim C2 as stated: with a query that fails on the
second patched key, `convertPatchToDiff` returns the entry recorded for
the first key alongside the propagated error, so the caller does receive
a partial diff next to the error. -/
theorem C2_counterexample :
    convertPatchToDiff failOnKeyB []
      [("a", some (.intg 1)), ("b", some (.intg 2))]
      (some [("a", some (.intg 0)), ("b", some (.intg 0))])
      [("a", some (.intg 1)), ("b", some (.intg 2))] []
    = ([("a", ⟨.UPDATE, false⟩)], some (.queryErr "boom"))
    ∧ [("a", (⟨.UPDATE, false⟩ : PropertyDiff))] ≠ ([] : DiffMap) := by
  exact ⟨by rfl, by simp⟩

/-- Claim C2, amended: an error from the force-new pattern query aborts
the computation at the failing path (nothing is recorded there) and the
error propagates outward; entries recorded before the failure remain in
the returned map. -/
theorem C2_query_error_propagation (q : QueryFn) (fn : List String)
    (fuel : Nat) (path : List PathSeg) (ow ni : JVal) (oldInput : Option JVal)
    (inArray : Bool) (diff : DiffMap) (doc : JObj) (e : String)
    (hdoc : makePatchSlice path none = some (.obj doc))
    (hq : q doc fn = Except.error e) :
    addPatchValueToDiff q fn (fuel + 1) path none (some ow) (some ni)
        oldInput inArray diff
      = (diff, some (.queryErr e)) := by
  unfold addPatchValueToDiff
  simp [recordDiff, hdoc, hq]

/-- Witness for the amended C2 at a concrete input. -/
theorem C2_query_error_propagation_witness :
    addPatchValueToDiff failOnKeyB [] 1 [.key "b"] none (some (.intg 2))
      (some (.intg 9)) none false [] = ([], some (.queryErr "boom")) :=
  C2_query_error_propagation failOnKeyB [] 0 [.key "b"] (.intg 2) (.intg 9)
    none false [] [("b", none)] "boom" (by rfl) (by rfl)

/-- Counterexample to claim C3 as stated: the newInputs tree is
structurally identical to the old live tree at the (only) patched path,
yet the result map is not empty, because the recorded comparison is
between the patched value and the old value, not the new input. -/
theorem C3_counterexample :
    (convertPatchToDiff alwaysEmptyQuery []
        [("k", some (.intg 5))]
        (some [("k", some (.intg 3))])
        [("k", some (.intg 3))]
        [("k", some (.intg 3))]).1
      = [("k", ⟨.UPDATE, false⟩)]
    ∧ [("k", (⟨.UPDATE, false⟩ : PropertyDiff))] ≠ ([] : DiffMap) := by
  exact ⟨by rfl, by simp⟩

/-- Claim C3, amended: if the patch tree is structurally and numerically a
no-op against the old live tree (at map nodes reached by the patch the old
map has exactly the patched keys with non-null pointwise no-op values, at
array nodes equal lengths with non-null pointwise no-op elements, and at
leaves deep or numeric equality), then the diff is empty and no error is
returned, for any newInputs and oldInputs. -/
theorem C3_noop_idempotence (q : QueryFn) (fn : List String)
    (patch old newInputs oldInputs : JObj)
    (hp : patch ≠ []) (hn : noopFields patch old = true) :
    convertPatchToDiff q fn patch (some old) newInputs oldInputs = ([], none) := by
  unfold convertPatchToDiff
  have hne : patch.isEmpty = false := by
    cases patch
    · exact absurd rfl hp
    · rfl
  rw [hne]
  simp only [Bool.false_eq_true, if_false]
  exact (noop_empty (patchConverterFuel patch old)).2.1 q fn [] patch old
    newInputs oldInputs false [] (by unfold patchConverterFuel; omega) hn (Or.inl rfl)

/-- Witness for the amended C3 at a concrete input (including the numeric
int-versus-float equivalence at a leaf). -/
theorem C3_noop_idempotence_witness :
    convertPatchToDiff alwaysEmptyQuery [] [("a", some (.flt 3))]
      (some [("a", some (.intg 3))]) [] [] = ([], none) :=
  C3_noop_idempotence alwaysEmptyQuery [] [("a", some (.flt 3))]
    [("a", some (.intg 3))] [] [] (by simp) (by rfl)

/-- Counterexample to claim C4 as stated: with `newInput` nil, `v` nil and
`oldInput` non-nil, a DELETE entry is recorded (the suppression guard does
not fire because `oldInput` is non-nil), contradicting the claim that no
diff results. -/
theorem C4_counterexample :
    (addPatchValueToDiff alwaysEmptyQuery [] 1 [.key "k"] none
        (some (.intg 2)) none (some (.intg 2)) false []).1
      = [("k", ⟨.DELETE, true⟩)]
    ∧ [("k", (⟨.DELETE, true⟩ : PropertyDiff))] ≠ ([] : DiffMap) := by
  exact ⟨by rfl, by simp⟩

/-- Claim C4, amended: a path where `newInput` is nil, `v` is nil and
`oldInput` is non-nil yields a DELETE diff (escalated to DELETE_REPLACE on
a force-new match) with `InputDiff = true`: the user deleted a previously
declared input.  No diff results only when `oldInput` is nil as well. -/
theorem C4_delete_recorded (q : QueryFn) (fn : List String) (fuel : Nat)
    (path : List PathSeg) (old : Option JVal) (oiv : JVal) (inArray : Bool)
    (diff : DiffMap) (doc : JObj) (ms : List String)
    (hdoc : makePatchSlice path none = some (.obj doc))
    (hq : q doc fn = Except.ok ms) :
    addPatchValueToDiff q fn (fuel + 1) path none old none (some oiv) inArray diff
      = (insertDiff diff (renderPath path)
           ⟨if ms.isEmpty then .DELETE else .DELETE_REPLACE, true⟩, none) := by
  unfold addPatchValueToDiff
  simp [recordDiff, hdoc, hq, escalateKind]

/-- Witness for the amended C4 at a concrete input. -/
theorem C4_delete_recorded_witness :
    addPatchValueToDiff alwaysEmptyQuery [] 1 [.key "k"] none
      (some (.intg 2)) none (some (.intg 2)) false []
      = ([("k", ⟨.DELETE, true⟩)], none) := by
  have h := C4_delete_recorded alwaysEmptyQuery [] 0 [.key "k"]
    (some (.intg 2)) (.intg 2) false [] [("k", none)] [] (by rfl) (by rfl)
  exact h.trans (by rfl)

/-- Claim C5: at a primitive leaf, diffing the 64-bit float 3.0 against
the 64-bit integer 3 records nothing (numeric equivalence, in any
context), while diffing integer 4 against integer 3 records an UPDATE at
the rendered path (given a declared new input and no force-new match). -/
theorem C5_numeric_equivalence (q : QueryFn) (fn : List String) (fuel : Nat) :
    (∀ (path : List PathSeg) (newInput oldInput : Option JVal)
       (inArray : Bool) (diff : DiffMap),
       addPatchValueToDiff q fn (fuel + 1) path (some (.flt 3))
           (some (.intg 3)) newInput oldInput inArray diff = (diff, none)) ∧
    (∀ (path : List PathSeg) (ni : JVal) (oldInput : Option JVal)
       (inArray : Bool) (diff : DiffMap) (doc : JObj),
       makePatchSlice path (some (.intg 4)) = some (.obj doc) →
       q doc fn = Except.ok [] →
       addPatchValueToDiff q fn (fuel + 1) path (some (.intg 4))
           (some (.intg 3)) (some ni) oldInput inArray diff
         = (insertDiff diff (renderPath path) ⟨.UPDATE, false⟩, none)) := by
  constructor
  · intro path newInput oldInput inArray diff
    unfold addPatchValueToDiff
    cases newInput <;> simp [JVal.beq, equalNumbers, kindOf, toFloatNum]
  · intro path ni oldInput inArray diff doc hdoc hq
    unfold addPatchValueToDiff
    simp [JVal.beq, equalNumbers, kindOf, toFloatNum, recordDiff, hdoc, hq]

/-- Witness for C5 at concrete inputs. -/
theorem C5_numeric_equivalence_witness :
    (addPatchValueToDiff alwaysEmptyQuery [] 1 [.key "p"] (some (.flt 3))
       (some (.intg 3)) none none false [] = ([], none)) ∧
    (addPatchValueToDiff alwaysEmptyQuery [] 1 [.key "k"] (some (.intg 4))
       (some (.intg 3)) (some (.intg 4)) none false []
       = ([("k", ⟨.UPDATE, false⟩)], none)) := by
  constructor
  · exact (C5_numeric_equivalence alwaysEmptyQuery [] 0).1 [.key "p"] none none false []
  · have h := (C5_numeric_equivalence alwaysEmptyQuery [] 0).2 [.key "k"]
      (.intg 4) none false [] [("k", some (.intg 4))] (by rfl) (by rfl)
    exact h.trans (by rfl)

/-- Counterexample to claim C6 as stated: a key present in the old map and
absent from the patch map does not surface as a DELETE diff when the
per-path suppression rule fires (here both input maps lack the key), even
with `inArray = true`. -/
theorem C6_counterexample :
    addPatchMapToDiff alwaysEmptyQuery [] 6 [] [] [("b", some (.intg 2))]
      [] [] true [] = ([], none) := by rfl

/-- Claim C6, amended: with `inArray = true` each key of the old map
absent from the patch map is revisited with `v = nil`, and surfaces as a
DELETE (or DELETE_REPLACE) diff at its path provided the suppression rule
does not fire there (e.g. the new input map declares the key) and the
force-new query succeeds; with `inArray = false` no deletion is
synthesized for such keys. -/
theorem C6_delete_inference (q : QueryFn) (fn : List String) (fuel : Nat)
    (path : List PathSeg) :
    (∀ (k : String) (w nix : JVal) (oiM : JObj) (diff : DiffMap)
       (doc : JObj) (ms : List String),
       makePatchSlice (path ++ [.key k]) none = some (.obj doc) →
       q doc fn = Except.ok ms →
       addPatchMapToDiff q fn (fuel + 3) path [] [(k, some w)]
           [(k, some nix)] oiM true diff
         = (insertDiff diff (renderPath (path ++ [.key k]))
              ⟨if ms.isEmpty then .DELETE else .DELETE_REPLACE, true⟩, none)) ∧
    (∀ (old niM oiM : JObj) (diff : DiffMap),
       addPatchMapToDiff q fn (fuel + 2) path [] old niM oiM false diff
         = (diff, none)) := by
  constructor
  · intro k w nix oiM diff doc ms hdoc hq
    unfold addPatchMapToDiff mapEntriesLoop mapDeletesLoop
    unfold addPatchValueToDiff
    simp [hasKey, lookupVal, recordDiff, hdoc, hq, escalateKind]
    unfold mapDeletesLoop
    simp
  · intro old niM oiM diff
    unfold addPatchMapToDiff mapEntriesLoop
    simp

/-- Witness for the amended C6 at concrete inputs. -/
theorem C6_delete_inference_witness :
    (addPatchMapToDiff alwaysEmptyQuery [] 3 [] [] [("b", some (.intg 2))]
       [("b", some (.intg 2))] [] true []
       = ([("b", ⟨.DELETE, true⟩)], none)) ∧
    (addPatchMapToDiff alwaysEmptyQuery [] 2 [] []
       [("b", some (.intg 2))] [] [] false [] = ([], none)) := by
  constructor
  · have h := (C6_delete_inference alwaysEmptyQuery [] 0 []).1 "b" (.intg 2)
      (.intg 2) [] [] [("b", none)] [] (by rfl) (by rfl)
    exact h.trans (by rfl)
  · exact (C6_delete_inference alwaysEmptyQuery [] 0 []).2
      [("b", some (.intg 2))] [] [] []

/-- Claim C7: a recorded entry carries the `_REPLACE` variant of its kind
exactly when the force-new query on the one-path document built by
`makePatchSlice` returns a non-empty match list, in each of the three
classification outcomes (DELETE, ADD, UPDATE). -/
theorem C7_replace_escalation (q : QueryFn) (fn : List String) (fuel : Nat)
    (path : List PathSeg) :
    (∀ (ow ni : JVal) (oldInput : Option JVal) (inArray : Bool)
       (diff : DiffMap) (doc : JObj) (ms : List String),
       makePatchSlice path none = some (.obj doc) →
       q doc fn = Except.ok ms →
       addPatchValueToDiff q fn (fuel + 1) path none (some ow) (some ni)
           oldInput inArray diff
         = (insertDiff diff (renderPath path)
              ⟨if ms.isEmpty then .DELETE else .DELETE_REPLACE, true⟩, none)) ∧
    (∀ (w ni : JVal) (oldInput : Option JVal) (inArray : Bool)
       (diff : DiffMap) (doc : JObj) (ms : List String),
       makePatchSlice path (some w) = some (.obj doc) →
       q doc fn = Except.ok ms →
       addPatchValueToDiff q fn (fuel + 1) path (some w) none (some ni)
           oldInput inArray diff
         = (insertDiff diff (renderPath path)
              ⟨if ms.isEmpty then .ADD else .ADD_REPLACE, false⟩, none)) ∧
    (∀ (a b : Int) (ni : JVal) (oldInput : Option JVal) (inArray : Bool)
       (diff : DiffMap) (doc : JObj) (ms : List String),
       a ≠ b →
       makePatchSlice path (some (.intg a)) = some (.obj doc) →
       q doc fn = Except.ok ms →
       addPatchValueToDiff q fn (fuel + 1) path (some (.intg a))
           (some (.intg b)) (some ni) oldInput inArray diff
         = (insertDiff diff (renderPath path)
              ⟨if ms.isEmpty then .UPDATE else .UPDATE_REPLACE, false⟩, none)) := by
  refine ⟨?_, ?_, ?_⟩
  · intro ow ni oldInput inArray diff doc ms hdoc hq
    unfold addPatchValueToDiff
    simp [recordDiff, hdoc, hq, escalateKind]
  · intro w ni oldInput inArray diff doc ms hdoc hq
    unfold addPatchValueToDiff
    simp [recordDiff, hdoc, hq, escalateKind]
  · intro a b ni oldInput inArray diff doc ms hab hdoc hq
    unfold addPatchValueToDiff
    simp [JVal.beq, equalNumbers, kindOf, toFloatNum, recordDiff, hdoc, hq,
      escalateKind, hab]

/-- Witness for C7: the same UPDATE escalates on a matching pattern list
and stays plain on an empty one. -/
theorem C7_replace_escalation_witness :
    (addPatchValueToDiff (fun _ _ => Except.ok ["spec.clusterIP"]) [] 1
       [.key "clusterIP"] (some (.intg 4)) (some (.intg 3)) (some (.intg 4))
       none false []
       = ([("clusterIP", ⟨.UPDATE_REPLACE, false⟩)], none)) ∧
    (addPatchValueToDiff alwaysEmptyQuery [] 1
       [.key "clusterIP"] (some (.intg 4)) (some (.intg 3)) (some (.intg 4))
       none false []
       = ([("clusterIP", ⟨.UPDATE, false⟩)], none)) := by
  constructor
  · have h := (C7_replace_escalation (fun _ _ => Except.ok ["spec.clusterIP"])
      [] 0 [.key "clusterIP"]).2.2 4 3 (.intg 4) none false []
      [("clusterIP", some (.intg 4))] ["spec.clusterIP"] (by simp) (by rfl) (by rfl)
    exact h.trans (by rfl)
  · have h := (C7_replace_escalation alwaysEmptyQuery [] 0 [.key "clusterIP"]).2.2
      4 3 (.intg 4) none false [] [("clusterIP", some (.intg 4))] [] (by simp)
      (by rfl) (by rfl)
    exact h.trans (by rfl)

/-- Claim C8: path rendering appends a plain segment with a dot separator
(none when the rendered prefix is empty, in particular for the first
segment), a reserved-character segment in escaped bracket form with no
separator, and an index as `[N]` with no separator; the segment list
`["items", 0, "name"]` renders as `items[0].name`. -/
theorem C8_path_rendering :
    (∀ (xs : List PathSeg) (s : String), hasReservedChar s = false →
       renderPath (xs ++ [.key s])
         = (if renderPath xs = "" then s else renderPath xs ++ "." ++ s)) ∧
    (∀ (xs : List PathSeg) (s : String), hasReservedChar s = true →
       renderPath (xs ++ [.key s])
         = renderPath xs ++ "[\"" ++ escapeQuotes s ++ "\"]") ∧
    (∀ (xs : List PathSeg) (n : Nat),
       renderPath (xs ++ [.idx n]) = renderPath xs ++ "[" ++ toString n ++ "]") ∧
    renderPath [.key "items", .idx 0, .key "name"] = "items[0].name" ∧
    renderPath [.key "metadata", .key "annotations",
        .key "kubectl.kubernetes.io/last-applied-configuration"]
      = "metadata.annotations[\"kubectl.kubernetes.io/last-applied-configuration\"]" ∧
    renderPath [.key "a\"b"] = "[\"a\\\"b\"]" := by
  refine ⟨?_, ?_, ?_, by rfl, by rfl, by rfl⟩
  · intro xs s h
    simp [renderPath, List.foldl_append, renderSeg, h]
  · intro xs s h
    simp [renderPath, List.foldl_append, renderSeg, h]
  · intro xs n
    simp [renderPath, List.foldl_append, renderSeg]

/-- Witness for C8 at concrete inputs. -/
theorem C8_path_rendering_witness :
    (renderPath [.key "metadata", .key "name"] = "metadata.name") ∧
    (renderPath [.key "metadata", .key "a.b"] = "metadata[\"a.b\"]") ∧
    (renderPath [.key "items", .idx 2] = "items[2]") := by
  refine ⟨?_, ?_, ?_⟩
  · have h := C8_path_rendering.1 [.key "metadata"] "name" (by rfl)
    exact h.trans (by rfl)
  · have h := C8_path_rendering.2.1 [.key "metadata"] "a.b" (by rfl)
    exact h.trans (by rfl)
  · have h := C8_path_rendering.2.2.1 [.key "items"] 2
    exact h.trans (by rfl)

/-- Claim C9: `convertPatchToDiff` always terminates normally with respect
to the recursion: the fuel it allots, bounded by the sizes of the patch
and old trees, is provably never exhausted (`fuel_sufficient` gives the
strictly descending measure argument for the mutual recursion). -/
theorem C9_termination (q : QueryFn) (fn : List String) (patch : JObj)
    (oldLiveState : Option JObj) (newInputs oldInputs : JObj) :
    (convertPatchToDiff q fn patch oldLiveState newInputs oldInputs).2
      ≠ some PErr.fuelOut := by
  unfold convertPatchToDiff
  rcases oldLiveState with _ | old
  · simp
  · simp only []
    split
    · simp
    · apply (fuel_sufficient (patchConverterFuel patch old)).2.1
      unfold patchConverterFuel
      omega

/-- Claim C10: a patch binding a key to an explicit null while the key is
absent from (or null in) both the old live state and the old inputs makes
`addPatchValueToDiff`'s assertion fail, so `convertPatchToDiff` aborts
abnormally even though its documented preconditions (non-empty patch,
non-nil old live state) hold. -/
theorem C10_assertion_failure (q : QueryFn) (fn : List String) (k : String)
    (om ni oi : JObj)
    (hold : lookupVal om k = none) (hoi : lookupVal oi k = none) :
    convertPatchToDiff q fn [(k, none)] (some om) ni oi
      = ([], some PErr.assertFail) := by
  unfold convertPatchToDiff
  simp [patchConverterFuel, sizeFields, sizeOptV]
  rw [show (1 + sizeFields om + 4) = (sizeFields om + 4) + 1 by omega]
  unfold addPatchMapToDiff
  rw [show (sizeFields om + 4) = (sizeFields om + 3) + 1 by omega]
  unfold mapEntriesLoop
  rw [show (sizeFields om + 3) = (sizeFields om + 2) + 1 by omega]
  unfold addPatchValueToDiff
  simp [hold, hoi]

/-- Witness for C10 at a concrete input. -/
theorem C10_assertion_failure_witness :
    convertPatchToDiff alwaysEmptyQuery [] [("k", none)]
      (some [("a", some (.intg 1))]) [] []
      = ([], some PErr.assertFail) :=
  C10_assertion_failure alwaysEmptyQuery [] "k" [("a", some (.intg 1))] [] []
    (by rfl) (by rfl)
